import Mathlib

/-!
Verification of the ReReco `Request` model (`core/model/request.py`):
the cmsDriver pipeline compiler (`get_sequence_name`, `build_cmsdriver`,
`get_cmsdriver`), the `runs` normalization hook (`before_attribute_check`)
and the `priority` validation rule (`_lambda_checks`).

Python values appearing in a sequence's argument dictionary are modelled by
`PyVal`; a Python dict is modelled as an association list with
insertion-order semantics (`dictSet` updates in place or appends, mirroring
`d[k] = v`). List elements are modelled as their `str()` images, since the
code only ever joins them with `','.join(str(x) ...)`.
-/

/-- A Python value as it appears in a sequence argument dictionary:
a string, a boolean, an integer, a list (elements modelled as their
`str()` images) or `None`. -/
inductive PyVal where
  | vStr (s : String)
  | vBool (b : Bool)
  | vInt (n : Int)
  | vList (xs : List String)
  | vNone
deriving DecidableEq, Repr

/-- Python truthiness test (`if not arguments[key]`): empty string, `False`,
`0`, empty list and `None` are falsy. -/
def isFalsy : PyVal → Bool
  | .vStr s => s.isEmpty
  | .vBool b => !b
  | .vInt n => n == 0
  | .vList xs => xs.isEmpty
  | .vNone => true

/-- Python `str()` rendering used by the f-string `f' --{key} {arguments[key]}'`.
Booleans and lists are rebound (to `''` and to their comma-join) before any
rendering in `build_cmsdriver`, so those branches are unreachable there. -/
def pyStr : PyVal → String
  | .vStr s => s
  | .vBool b => if b then "True" else "False"
  | .vInt n => toString n
  | .vList xs => String.intercalate "," xs
  | .vNone => "None"

/-- The rebinding `build_cmsdriver` performs on a dictionary entry while
emitting it: a falsy value is skipped untouched, `True` is rebound to `''`
(`if isinstance(arguments[key], bool): arguments[key] = ''`), a list is
rebound to the comma-join of the `str()` of its elements
(`arguments[key] = ','.join([str(x) for x in arguments[key]])`); every
other value is left as it is. -/
def rewriteVal (v : PyVal) : PyVal :=
  if isFalsy v then v
  else
    match v with
    | .vBool _ => .vStr ""
    | .vList xs => .vStr (String.intercalate "," xs)
    | w => w

/-- Python `str.rstrip()` restricted to ASCII whitespace: drop trailing
whitespace characters. -/
def pyRstrip (s : String) : String :=
  ⟨(s.data.reverse.dropWhile (fun c => c.isWhitespace)).reverse⟩

/-- Lexicographic comparison of character lists by code point, the order
Python's `sorted` uses on strings. -/
def charListLe : List Char → List Char → Bool
  | [], _ => true
  | _ :: _, [] => false
  | a :: as, b :: bs =>
    if a.toNat < b.toNat then true
    else if b.toNat < a.toNat then false
    else charListLe as bs

/-- Lexicographic order on strings by code point (Python string `sorted`). -/
def strLe (a b : String) : Bool := charListLe a.data b.data

/-- Python dict assignment `d[k] = v` on an association list: replace the
value at the (first, and in a dict unique) existing occurrence of the key in
place, else append the new pair at the end. -/
def dictSet : List (String × PyVal) → String → PyVal → List (String × PyVal)
  | [], k, v => [(k, v)]
  | kv :: rest, k, v =>
    if kv.1 = k then (k, v) :: rest else kv :: dictSet rest k v

/-- Concatenation of string pieces, modelling a Python `+=` accumulation
loop. -/
def strConcat : List String → String
  | [] => ""
  | s :: rest => s ++ strConcat rest

/-- `Request.get_sequence_name`: the canonical sequence (output file base)
name, `"{prepid}_{sequence_index}"` unless the index is the last one
(`len(sequences) - 1`, a Python `int`), in which case it is the bare
prepid. -/
def get_sequence_name (prepid : String) (num_sequences : Nat)
    (sequence_index : Int) : String :=
  if sequence_index ≠ (num_sequences : Int) - 1 then
    prepid ++ "_" ++ toString sequence_index
  else
    prepid

/-- The keys of `arguments` in the order Python's
`sorted(arguments.keys())` produces them. -/
def sorted_keys (arguments : List (String × PyVal)) : List String :=
  List.insertionSort (fun a b => strLe a b) (arguments.map Prod.fst)

/-- The piece `f' --{key} {arguments[key]}'.rstrip()` that the
`build_cmsdriver` loop appends to the command for one key: empty when the
key's value is falsy (the loop `continue`s), otherwise the flag with the
rebound value. -/
def emit_command (arguments : List (String × PyVal)) (key : String) : String :=
  match arguments.lookup key with
  | some v =>
    if isFalsy v then ""
    else pyRstrip (" --" ++ key ++ " " ++ pyStr (rewriteVal v))
  | none => ""

/-- The piece `f'# --{key} {arguments[key]}'.rstrip() + '\n'` that the
`build_cmsdriver` loop appends to the comment section for one key. -/
def emit_comment (arguments : List (String × PyVal)) (key : String) : String :=
  match arguments.lookup key with
  | some v =>
    if isFalsy v then ""
    else pyRstrip ("# --" ++ key ++ " " ++ pyStr (rewriteVal v)) ++ "\n"
  | none => ""

/-- `Request.build_cmsdriver(cmsdriver_type, arguments)`: iterate over the
sorted keys, skip falsy values, rebind booleans and lists, and accumulate a
comment section and the command line; return `comment + '\n' + command`
together with the dictionary as the loop leaves it (the Python code mutates
`arguments` in place; the rebinding is `rewriteVal` applied entrywise). -/
def build_cmsdriver (cmsdriver_type : String)
    (arguments : List (String × PyVal)) : String × List (String × PyVal) :=
  let command := "# Command for " ++ cmsdriver_type ++ ":\ncmsDriver.py "
      ++ cmsdriver_type
      ++ strConcat ((sorted_keys arguments).map (emit_command arguments))
  let comment := "# Arguments for " ++ cmsdriver_type ++ ":\n"
      ++ strConcat ((sorted_keys arguments).map (emit_comment arguments))
  (comment ++ "\n" ++ command,
   arguments.map (fun kv => (kv.1, rewriteVal kv.2)))

/-- The request fields `get_cmsdriver` reads: `prepid`, `input_dataset` and
the list of sequence argument dictionaries. -/
structure Request where
  prepid : String
  input_dataset : String
  sequences : List (List (String × PyVal))

/-- Modelled from the spec: `SequenceConfig`'s reserved `step` field (class
`Sequence` is not part of the sources) — the ordered list of step names
stored under the `"step"` key, empty when absent. -/
def sequence_step (sequence_json : List (String × PyVal)) : List String :=
  match sequence_json.lookup "step" with
  | some (.vList xs) => xs
  | _ => []

/-- Python `s.startswith(p)`: the characters of `p` are a prefix of the
characters of `s`. -/
def pyStartsWith (s p : String) : Bool := p.data.isPrefixOf s.data

/-- Python `s.split(',')[0]`: the prefix of `s` up to the first comma (the
whole of `s` when it has no comma; `""` splits to `[""]`, whose head is
`""`). -/
def firstCommaToken (s : String) : String :=
  ⟨s.data.takeWhile (fun c => c != ',')⟩

/-- Modelled from the spec: `Sequence.needs_harvesting` (class `Sequence` is
not part of the sources) — harvesting is needed iff the step list contains
an entry equal to `"DQM"` or starting with `"DQM:"`. -/
def needs_harvesting (sequence_json : List (String × PyVal)) : Bool :=
  (sequence_step sequence_json).any
    (fun s => s == "DQM" || pyStartsWith s "DQM:")

/-- The scan in `get_cmsdriver` that fixes the harvesting step label: the
first entry equal to `"DQM"` yields `"HARVESTING"`, the first entry starting
with `"DQM:"` yields that entry with the leading `"DQM:"` replaced by
`"HARVESTING:"` (`one_step.replace('DQM:', 'HARVESTING:', 1)`; under the
`startswith` guard the first occurrence is the leading one); `none` when no
entry matches. -/
def harvest_step_label : List String → Option String
  | [] => none
  | s :: rest =>
    if s == "DQM" then some "HARVESTING"
    else if pyStartsWith s "DQM:" then some ("HARVESTING:" ++ s.drop 4)
    else harvest_step_label rest

/-- Deleting the sequence metadata keys `config_id` and
`harvesting_config_id` from the argument dictionary. -/
def strip_metadata (d : List (String × PyVal)) : List (String × PyVal) :=
  d.filter (fun kv => kv.1 != "config_id" && kv.1 != "harvesting_config_id")

/-- The argument dictionary `get_cmsdriver` passes to
`build_cmsdriver('RECO', ...)`: the sequence's arguments with metadata
stripped, `filein` resolved (the truthy `overwrite_input` verbatim; else the
`dbs:` reference to `input_dataset` at index 0; else the previous sequence's
canonical name as a `file:` reference), and `fileout`, `python_filename`,
`data`, `no_exec`, `runUnscheduled` assigned. -/
def reco_arguments (req : Request) (sequence_json : List (String × PyVal))
    (sequence_index : Nat) (overwrite_input : Option String) :
    List (String × PyVal) :=
  let d := strip_metadata sequence_json
  let d :=
    if (overwrite_input.getD "") ≠ "" then
      dictSet d "filein" (.vStr (overwrite_input.getD ""))
    else if sequence_index == 0 then
      dictSet d "filein" (.vStr ("\"dbs:" ++ req.input_dataset ++ "\""))
    else
      dictSet d "filein" (.vStr ("\"file:"
        ++ get_sequence_name req.prepid req.sequences.length
             ((sequence_index : Int) - 1) ++ ".root\""))
  let sequence_name :=
    get_sequence_name req.prepid req.sequences.length (sequence_index : Int)
  let d := dictSet d "fileout" (.vStr ("\"file:" ++ sequence_name ++ ".root\""))
  let d := dictSet d "python_filename"
      (.vStr ("\"" ++ req.prepid ++ "_" ++ toString sequence_index ++ "_cfg.py\""))
  let d := dictSet d "data" (.vBool true)
  let d := dictSet d "no_exec" (.vBool true)
  let d := dictSet d "runUnscheduled" (.vBool true)
  d

/-- A failure of `get_cmsdriver`, the Python exception that aborts the call:
an out-of-range sequence index (`IndexError`), a missing required key in the
argument dictionary (`KeyError`), a `.split` on a non-string (`AttributeError`)
or the harvesting label variable left unbound (`NameError`). -/
inductive PipelineCompilationError where
  | indexError
  | keyError (key : String)
  | attributeError (key : String)
  | nameError
deriving DecidableEq, Repr

/-- `Request.get_cmsdriver(sequence_index, overwrite_input)`: build the RECO
command from `reco_arguments`, then, when the sequence needs harvesting,
append (after a blank line) a HARVESTING command built from the harvesting
dictionary, whose `conditions`, `era` and `scenario` are read from the
argument dictionary as `build_cmsdriver` left it (the Python dict was
mutated in place). Any exception the Python code would raise is an
`Except.error`; no partial text is returned. -/
def get_cmsdriver (req : Request) (sequence_index : Nat)
    (overwrite_input : Option String) :
    Except PipelineCompilationError String :=
  match req.sequences.get? sequence_index with
  | none => .error .indexError
  | some sequence_json =>
    let arguments_dict :=
      reco_arguments req sequence_json sequence_index overwrite_input
    let sequence_name :=
      get_sequence_name req.prepid req.sequences.length (sequence_index : Int)
    let built := build_cmsdriver "RECO" arguments_dict
    let cms_driver_command := built.1
    let mutated := built.2
    if needs_harvesting sequence_json then
      match harvest_step_label (sequence_step sequence_json) with
      | none => .error .nameError
      | some step_label =>
        match mutated.lookup "conditions" with
        | none => .error (.keyError "conditions")
        | some conditions =>
          match mutated.lookup "era" with
          | none => .error (.keyError "era")
          | some (.vStr era_str) =>
            match mutated.lookup "scenario" with
            | none => .error (.keyError "scenario")
            | some scenario =>
              let harvesting_dict : List (String × PyVal) :=
                [("conditions", conditions),
                 ("step", .vStr step_label),
                 ("era", .vStr (firstCommaToken era_str)),
                 ("scenario", scenario),
                 ("data", .vBool true),
                 ("no_exec", .vBool true),
                 ("filein", .vStr ("\"file:" ++ sequence_name ++ "_inDQM.root\"")),
                 ("python_filename",
                  .vStr ("\"" ++ sequence_name ++ "_harvest_cfg.py\""))]
              .ok (cms_driver_command ++ "\n\n"
                ++ (build_cmsdriver "HARVESTING" harvesting_dict).1)
          | some _ => .error (.attributeError "era")
    else
      .ok cms_driver_command

/-! Dictionary lemmas. -/

theorem lookup_cons {β : Type} (a : String) (p : String × β)
    (l : List (String × β)) :
    ((p :: l).lookup a) = if a = p.1 then some p.2 else l.lookup a := by
  show (match a == p.1 with
        | true => some p.2
        | false => l.lookup a) = _
  by_cases h : a = p.1
  · simp [h]
  · have hb : (a == p.1) = false := beq_eq_false_iff_ne.mpr h
    simp [hb, h]

theorem lookup_map_value (d : List (String × PyVal)) (f : PyVal → PyVal)
    (k : String) :
    (d.map (fun kv => (kv.1, f kv.2))).lookup k = (d.lookup k).map f := by
  induction d with
  | nil => rfl
  | cons hd tl ih =>
    rw [List.map_cons, lookup_cons, lookup_cons]
    by_cases h : k = hd.1 <;> simp [h, ih]

theorem lookup_dictSet_self (d : List (String × PyVal)) (k : String)
    (v : PyVal) : (dictSet d k v).lookup k = some v := by
  induction d with
  | nil => simp [dictSet, lookup_cons]
  | cons hd tl ih =>
    by_cases h : hd.1 = k
    · simp [dictSet, h, lookup_cons]
    · rw [dictSet, if_neg h, lookup_cons, if_neg (Ne.symm h)]
      exact ih

theorem lookup_dictSet_ne (d : List (String × PyVal)) (k k' : String)
    (v : PyVal) (h : k' ≠ k) :
    (dictSet d k v).lookup k' = d.lookup k' := by
  induction d with
  | nil => simp [dictSet, lookup_cons, h]
  | cons hd tl ih =>
    by_cases hk : hd.1 = k
    · rw [dictSet, if_pos hk, lookup_cons, lookup_cons, hk, if_neg h, if_neg h]
    · rw [dictSet, if_neg hk, lookup_cons, lookup_cons]
      by_cases he : k' = hd.1 <;> simp [he, ih]

theorem lookup_strip_metadata (d : List (String × PyVal)) (k : String)
    (h1 : k ≠ "config_id") (h2 : k ≠ "harvesting_config_id") :
    (strip_metadata d).lookup k = d.lookup k := by
  unfold strip_metadata
  induction d with
  | nil => rfl
  | cons hd tl ih =>
    rw [List.filter_cons]
    by_cases hk : k = hd.1
    · have hf : (hd.1 != "config_id" && hd.1 != "harvesting_config_id") = true := by
        simp only [← hk]
        simp [h1, h2]
      rw [if_pos hf, lookup_cons, if_pos hk, lookup_cons, if_pos hk]
    · by_cases hf : (hd.1 != "config_id" && hd.1 != "harvesting_config_id") = true
      · rw [if_pos hf, lookup_cons, if_neg hk, lookup_cons, if_neg hk, ih]
      · rw [if_neg hf, lookup_cons, if_neg hk, ih]

/-! `pyRstrip` lemmas. -/

theorem pyRstrip_append_space (s : String) :
    pyRstrip (s ++ " ") = pyRstrip s := by
  apply String.ext
  show ((s ++ " ").data.reverse.dropWhile (fun c => c.isWhitespace)).reverse
      = (s.data.reverse.dropWhile (fun c => c.isWhitespace)).reverse
  have h0 : (" " : String).data = [' '] := rfl
  rw [String.data_append, h0, List.reverse_append]
  have hws : (' ').isWhitespace = true := by decide
  show ((' ' :: s.data.reverse).dropWhile (fun c => c.isWhitespace)).reverse = _
  simp [List.dropWhile, hws]

theorem pyRstrip_hash (s t : String) (h : t.data = '#' :: s.data) :
    pyRstrip t = "#" ++ pyRstrip s := by
  apply String.ext
  have h0 : ("#" : String).data = ['#'] := rfl
  show (t.data.reverse.dropWhile (fun c => c.isWhitespace)).reverse
      = ("#" ++ pyRstrip s).data
  rw [h, String.data_append, h0]
  show ((('#' :: s.data)).reverse.dropWhile (fun c => c.isWhitespace)).reverse
      = '#' :: (s.data.reverse.dropWhile (fun c => c.isWhitespace)).reverse
  rw [List.reverse_cons, List.dropWhile_append]
  by_cases h : (s.data.reverse.dropWhile (fun c => c.isWhitespace)).isEmpty
  · rw [if_pos h]
    rw [List.isEmpty_iff] at h
    rw [h]
    have hns : ('#').isWhitespace = false := by decide
    simp [List.dropWhile, hns]
  · rw [if_neg (by simp [h]), List.reverse_append]
    rfl

/-! Order lemmas for the key comparator. -/

theorem charListLe_total : ∀ as bs : List Char,
    charListLe as bs = true ∨ charListLe bs as = true
  | [], _ => Or.inl rfl
  | _ :: _, [] => Or.inr rfl
  | a :: as, b :: bs => by
    by_cases h1 : a.toNat < b.toNat
    · exact Or.inl (by simp [charListLe, h1])
    · by_cases h2 : b.toNat < a.toNat
      · exact Or.inr (by simp [charListLe, h2, h1])
      · rcases charListLe_total as bs with h | h
        · exact Or.inl (by simp [charListLe, h1, h2, h])
        · exact Or.inr (by simp [charListLe, h1, h2, h])

theorem charListLe_trans : ∀ as bs cs : List Char,
    charListLe as bs = true → charListLe bs cs = true →
    charListLe as cs = true
  | [], _, _, _, _ => rfl
  | _ :: _, [], _, h, _ => by simp [charListLe] at h
  | _ :: _, _ :: _, [], _, h => by simp [charListLe] at h
  | a :: as, b :: bs, c :: cs, hab, hbc => by
    simp only [charListLe] at hab hbc ⊢
    by_cases h1 : a.toNat < b.toNat
    · by_cases h2 : b.toNat < c.toNat
      · simp [show a.toNat < c.toNat from Nat.lt_trans h1 h2]
      · by_cases h3 : c.toNat < b.toNat
        · simp [h2, h3] at hbc
        · have : b.toNat = c.toNat := Nat.le_antisymm (Nat.le_of_not_lt h3) (Nat.le_of_not_lt h2)
          simp [show a.toNat < c.toNat from this ▸ h1]
    · by_cases h1' : b.toNat < a.toNat
      · simp [h1, h1'] at hab
      · have hab' : a.toNat = b.toNat :=
          Nat.le_antisymm (Nat.le_of_not_lt h1') (Nat.le_of_not_lt h1)
        by_cases h2 : b.toNat < c.toNat
        · simp [hab' ▸ h2]
        · by_cases h3 : c.toNat < b.toNat
          · simp [h2, h3] at hbc
          · simp only [h2, h3, if_neg, if_false] at hbc
            have h2' : ¬ a.toNat < c.toNat := hab' ▸ h2
            have h3' : ¬ c.toNat < a.toNat := hab' ▸ h3
            simp only [h2', h3', if_neg, if_false]
            simp only [if_neg h1, if_neg h1'] at hab
            exact charListLe_trans as bs cs hab hbc

theorem charListLe_antisymm : ∀ as bs : List Char,
    charListLe as bs = true → charListLe bs as = true → as = bs
  | [], [], _, _ => rfl
  | [], _ :: _, _, h => by simp [charListLe] at h
  | _ :: _, [], h, _ => by simp [charListLe] at h
  | a :: as, b :: bs, hab, hba => by
    simp only [charListLe] at hab hba
    by_cases h1 : a.toNat < b.toNat
    · simp [Nat.lt_asymm h1, h1] at hba
    · by_cases h2 : b.toNat < a.toNat
      · simp [h1, h2] at hab
      · have hq : a = b := by
          apply Char.ext
          apply UInt32.ext
          exact Nat.le_antisymm (Nat.le_of_not_lt h2) (Nat.le_of_not_lt h1)
        simp only [if_neg h1, if_neg h2] at hab
        simp only [if_neg h2, if_neg h1] at hba
        rw [hq, charListLe_antisymm as bs hab hba]

instance : IsTotal String (fun a b => strLe a b = true) :=
  ⟨fun a b => charListLe_total a.data b.data⟩

instance : IsTrans String (fun a b => strLe a b = true) :=
  ⟨fun a b c => charListLe_trans a.data b.data c.data⟩

instance : IsAntisymm String (fun a b => strLe a b = true) :=
  ⟨fun a b hab hba => String.ext (charListLe_antisymm a.data b.data hab hba)⟩

theorem sorted_keys_perm (a : List (String × PyVal)) :
    (sorted_keys a).Perm (a.map Prod.fst) :=
  List.perm_insertionSort _ _

theorem sorted_keys_sorted (a : List (String × PyVal)) :
    (sorted_keys a).Sorted (fun x y => strLe x y = true) :=
  List.sorted_insertionSort _ _

theorem sorted_keys_eq_of_perm (a b : List (String × PyVal))
    (h : (a.map Prod.fst).Perm (b.map Prod.fst)) :
    sorted_keys a = sorted_keys b :=
  List.eq_of_perm_of_sorted
    (((sorted_keys_perm a).trans h).trans (sorted_keys_perm b).symm)
    (sorted_keys_sorted a) (sorted_keys_sorted b)

/-! Structure of the text `build_cmsdriver` returns. -/

/-- The keys `build_cmsdriver` actually emits: the sorted keys whose value
is present and not falsy. -/
def emitted_keys (arguments : List (String × PyVal)) : List String :=
  (sorted_keys arguments).filter (fun k =>
    match arguments.lookup k with
    | some v => !(isFalsy v)
    | none => false)

theorem strConcat_map_filter (f : String → String) (p : String → Bool)
    (l : List String) (h : ∀ x ∈ l, p x = false → f x = "") :
    strConcat (l.map f) = strConcat ((l.filter p).map f) := by
  induction l with
  | nil => rfl
  | cons hd tl ih =>
    rw [List.map_cons, List.filter_cons]
    by_cases hp : p hd = true
    · rw [if_pos hp, List.map_cons]
      show f hd ++ strConcat (tl.map f) = f hd ++ strConcat ((tl.filter p).map f)
      rw [ih (fun x hx => h x (List.mem_cons_of_mem hd hx))]
    · rw [if_neg hp]
      show f hd ++ strConcat (tl.map f) = _
      rw [h hd (List.mem_cons_self hd tl) (Bool.not_eq_true _ ▸ hp),
        ih (fun x hx => h x (List.mem_cons_of_mem hd hx))]
      rfl

theorem build_cmsdriver_fst (t : String) (a : List (String × PyVal)) :
    (build_cmsdriver t a).1
      = ("# Arguments for " ++ t ++ ":\n"
          ++ strConcat ((emitted_keys a).map (emit_comment a)))
        ++ "\n"
        ++ ("# Command for " ++ t ++ ":\ncmsDriver.py " ++ t
          ++ strConcat ((emitted_keys a).map (emit_command a))) := by
  show ("# Arguments for " ++ t ++ ":\n"
      ++ strConcat ((sorted_keys a).map (emit_comment a)))
      ++ "\n"
      ++ ("# Command for " ++ t ++ ":\ncmsDriver.py " ++ t
        ++ strConcat ((sorted_keys a).map (emit_command a))) = _
  have hcom : ∀ x ∈ sorted_keys a,
      (match a.lookup x with
       | some v => !(isFalsy v)
       | none => false) = false → emit_comment a x = "" := by
    intro x _ hx
    unfold emit_comment
    cases hl : a.lookup x with
    | none => rfl
    | some v =>
      rw [hl] at hx
      have hx2 : (!(isFalsy v)) = false := hx
      have hf : isFalsy v = true := by
        cases hfv : isFalsy v
        · rw [hfv] at hx2
          simp at hx2
        · rfl
      simp [hf]
  have hcmd : ∀ x ∈ sorted_keys a,
      (match a.lookup x with
       | some v => !(isFalsy v)
       | none => false) = false → emit_command a x = "" := by
    intro x _ hx
    unfold emit_command
    cases hl : a.lookup x with
    | none => rfl
    | some v =>
      rw [hl] at hx
      have hx2 : (!(isFalsy v)) = false := hx
      have hf : isFalsy v = true := by
        cases hfv : isFalsy v
        · rw [hfv] at hx2
          simp at hx2
        · rfl
      simp [hf]
  rw [strConcat_map_filter (emit_comment a)
      (fun k => match a.lookup k with
                | some v => !(isFalsy v)
                | none => false) (sorted_keys a) hcom,
    strConcat_map_filter (emit_command a)
      (fun k => match a.lookup k with
                | some v => !(isFalsy v)
                | none => false) (sorted_keys a) hcmd]
  rfl

theorem emit_comment_eq_hash (a : List (String × PyVal)) (k : String)
    (v : PyVal) (hv : a.lookup k = some v) (hf : isFalsy v = false) :
    emit_comment a k = "#" ++ emit_command a k ++ "\n" := by
  unfold emit_comment emit_command
  rw [hv]
  simp only [hf, Bool.false_eq_true, if_false, if_neg]
  have hd : ("# --" ++ k ++ " " ++ pyStr (rewriteVal v)).data
      = '#' :: ((" --" ++ k ++ " " ++ pyStr (rewriteVal v)).data) := by
    simp [String.data_append, List.append_assoc]
  rw [pyRstrip_hash (" --" ++ k ++ " " ++ pyStr (rewriteVal v))
    ("# --" ++ k ++ " " ++ pyStr (rewriteVal v)) hd]

/-! The `runs` normalization hook (`Request.before_attribute_check`) and the
`priority` validation rule (`Request._lambda_checks`). -/

/-- A raw element of a list assigned to the `runs` field: a Python int, or a
string (Python would coerce it with `int(run)`). -/
inductive RunValue where
  | rInt (n : Int)
  | rStr (s : String)
deriving DecidableEq, Repr

/-- Python `==` between a raw run value and an already stored int (the
membership test `run not in runs` compares the raw value against the list of
coerced ints): ints compare by value, a string never equals an int. -/
def runEqInt : RunValue → Int → Bool
  | .rInt n, x => n == x
  | .rStr _, _ => false

/-- Python `==` between two raw run values: ints by value, strings by value,
mixed comparisons are false. -/
def runEq : RunValue → RunValue → Bool
  | .rInt n, .rInt m => n == m
  | .rStr s, .rStr t => s == t
  | _, _ => false

/-- Decimal digit accumulation for the string case of Python `int()`. -/
def digitsToNat : List Char → Nat → Option Nat
  | [], acc => some acc
  | c :: rest, acc =>
    if c.isDigit then digitsToNat rest (acc * 10 + (c.toNat - 48)) else none

/-- Python `int()` on a plain decimal string (optionally signed); `none`
models the `ValueError` on anything else. -/
def pyInt (s : String) : Option Int :=
  match s.data with
  | [] => none
  | '-' :: rest =>
    if rest.isEmpty then none
    else (digitsToNat rest 0).map (fun n => -(n : Int))
  | l => (digitsToNat l 0).map (fun n => (n : Int))

/-- Python `int(run)` on a raw run value. -/
def runToInt : RunValue → Option Int
  | .rInt n => some n
  | .rStr s => pyInt s

/-- The loop in `Request.before_attribute_check` for the `runs` attribute:
`for run in attribute_value: if run not in runs: runs.append(int(run))`.
The membership test compares the raw value against the already coerced
ints; `none` models an `int()` failure escaping the loop. -/
def runs_loop : List RunValue → List Int → Option (List Int)
  | [], acc => some acc
  | run :: rest, acc =>
    if acc.any (fun x => runEqInt run x) then runs_loop rest acc
    else
      match runToInt run with
      | some n => runs_loop rest (acc ++ [n])
      | none => none

/-- `Request.before_attribute_check('runs', value)`: the normalized list the
hook returns for a `runs` assignment. -/
def before_attribute_check_runs (value : List RunValue) : Option (List Int) :=
  runs_loop value []

/-- First-occurrence deduplication of raw run values. -/
def dedup_runs_aux : List RunValue → List RunValue → List RunValue
  | [], acc => acc
  | x :: rest, acc =>
    if acc.any (fun y => runEq x y) then dedup_runs_aux rest acc
    else dedup_runs_aux rest (acc ++ [x])

/-- Coerce every raw run value to an integer (`none` when any `int()`
fails). -/
def coerce_all : List RunValue → Option (List Int)
  | [] => some []
  | x :: rest =>
    match runToInt x, coerce_all rest with
    | some n, some l => some (n :: l)
    | _, _ => none

/-- Stated from the claim's words, for comparison with the code: drop
duplicate values keeping the order of first occurrence, then coerce every
element to an integer. -/
def claimed_runs_normalization (value : List RunValue) : Option (List Int) :=
  coerce_all (dedup_runs_aux value [])

/-- First-occurrence deduplication of an integer list (the effect of the
`before_attribute_check` loop when every element is already an int). -/
def dedup_first_aux : List Int → List Int → List Int
  | [], acc => acc
  | x :: rest, acc =>
    if acc.any (fun y => x == y) then dedup_first_aux rest acc
    else dedup_first_aux rest (acc ++ [x])

/-- First-occurrence deduplication of an integer list. -/
def dedup_first (l : List Int) : List Int := dedup_first_aux l []

/-- The error `ModelBase` validation reports: the field name and the
rejected value. -/
structure ValidationError where
  field : String
  value : Int
deriving DecidableEq, Repr

/-- The `priority` predicate registered in `Request._lambda_checks`:
`lambda priority: 1000 <= priority <= 1000000`. -/
def priority_check (priority : Int) : Bool :=
  1000 ≤ priority && priority ≤ 1000000

/-- The stored request state relevant to a `priority` assignment; the schema
default is 110000. -/
structure RequestState where
  priority : Int
deriving DecidableEq, Repr

/-- Modelled from the spec: `ModelBase`'s checked `set` operation for the
`priority` field (class `ModelBase` is not part of the sources) — evaluate
the registered predicate against the incoming value; on failure return a
`ValidationError` carrying the field name and the offending value with the
stored state unchanged; on success store the value. The predicate itself is
`priority_check` from the sources. -/
def set_priority (st : RequestState) (value : Int) :
    Except ValidationError Unit × RequestState :=
  if priority_check value then (.ok (), { st with priority := value })
  else (.error ⟨"priority", value⟩, st)

/-! Lemmas about the `runs` normalization. -/

theorem runs_loop_map_rInt (l : List Int) (acc : List Int) :
    runs_loop (l.map .rInt) acc = some (dedup_first_aux l acc) := by
  induction l generalizing acc with
  | nil => rfl
  | cons x rest ih =>
    rw [List.map_cons, runs_loop, dedup_first_aux]
    simp only [runEqInt, runToInt]
    by_cases h : acc.any (fun y => x == y) <;> simp [h, ih]

theorem dedup_first_aux_nodup (l : List Int) (acc : List Int)
    (h : acc.Nodup) : (dedup_first_aux l acc).Nodup := by
  induction l generalizing acc with
  | nil => exact h
  | cons x rest ih =>
    rw [dedup_first_aux]
    by_cases hm : acc.any (fun y => x == y)
    · rw [if_pos hm]
      exact ih acc h
    · rw [if_neg hm]
      apply ih
      have hx : x ∉ acc := by
        intro hmem
        exact hm (List.any_eq_true.mpr ⟨x, hmem, by simp⟩)
      simp [List.nodup_append, h, hx]

theorem dedup_first_aux_of_nodup (l acc : List Int)
    (h : (acc ++ l).Nodup) : dedup_first_aux l acc = acc ++ l := by
  induction l generalizing acc with
  | nil => simp [dedup_first_aux]
  | cons x rest ih =>
    rw [dedup_first_aux]
    have hx : x ∉ acc := by
      rw [List.nodup_append] at h
      intro hmem
      exact h.2.2 hmem (List.mem_cons_self x rest)
    have hm : acc.any (fun y => x == y) = false := by
      rw [List.any_eq_false]
      intro y hy
      simp only [beq_iff_eq]
      intro he
      exact hx (he ▸ hy)
    rw [if_neg (by simp [hm])]
    have h2 : ((acc ++ [x]) ++ rest).Nodup := by
      simpa [List.append_assoc] using h
    rw [ih (acc ++ [x]) h2]
    simp

theorem dedup_runs_aux_map_rInt (l : List Int) (acc : List Int) :
    dedup_runs_aux (l.map .rInt) (acc.map .rInt)
      = (dedup_first_aux l acc).map .rInt := by
  induction l generalizing acc with
  | nil => rfl
  | cons x rest ih =>
    rw [List.map_cons, dedup_runs_aux, dedup_first_aux]
    have hany : (acc.map RunValue.rInt).any (fun y => runEq (.rInt x) y)
        = acc.any (fun y => x == y) := by
      induction acc with
      | nil => rfl
      | cons a as iha =>
        rw [List.map_cons, List.any_cons, List.any_cons, iha]
        rfl
    rw [hany]
    by_cases h : acc.any (fun y => x == y)
    · rw [if_pos h, if_pos h]
      exact ih acc
    · rw [if_neg h, if_neg h]
      have : acc.map RunValue.rInt ++ [RunValue.rInt x]
          = (acc ++ [x]).map RunValue.rInt := by simp
      rw [this]
      exact ih (acc ++ [x])

theorem coerce_all_map_rInt (l : List Int) :
    coerce_all (l.map .rInt) = some l := by
  induction l with
  | nil => rfl
  | cons x rest ih =>
    rw [List.map_cons, coerce_all, ih]
    simp [runToInt]

/-! Claim theorems. -/

/-- C4: for a request with prepid `p` and `n` sequences, `get_sequence_name`
returns `"{p}_{i}"` for every valid index `i` other than `n - 1`, and the
bare `"{p}"` for the final index `n - 1`. -/
theorem c4_sequence_name (p : String) (n i : Nat) (h : i < n) :
    (i ≠ n - 1 → get_sequence_name p n (i : Int) = p ++ "_" ++ toString i)
    ∧ (i = n - 1 → get_sequence_name p n (i : Int) = p) := by
  have hts : toString ((i : Nat) : Int) = toString i := rfl
  constructor
  · intro hne
    have hi : (i : Int) ≠ (n : Int) - 1 := by omega
    rw [get_sequence_name, if_pos hi, hts]
  · intro he
    have hi : ¬((i : Int) ≠ (n : Int) - 1) := by omega
    rw [get_sequence_name, if_neg hi]

/-- C4 witness: with two sequences, index 0 gets the `_0` suffix and the
final index 1 gets the bare prepid. -/
theorem c4_sequence_name_witness :
    get_sequence_name "ABC-123" 2 ((0 : Nat) : Int) = "ABC-123_0"
    ∧ get_sequence_name "ABC-123" 2 ((1 : Nat) : Int) = "ABC-123" :=
  ⟨((c4_sequence_name "ABC-123" 2 0 (by decide)).1 (by decide)).trans (by decide),
   (c4_sequence_name "ABC-123" 2 1 (by decide)).2 (by decide)⟩

/-- C6 counterexample: assigning `runs=["5","5"]` — a list with a duplicated
value — stores `[5, 5]`: the duplicate is not dropped (the membership test
compares the raw string against the already coerced ints), contradicting the
claimed dedup-and-coerce normalization, which gives `[5]`. -/
theorem c6_runs_counterexample :
    before_attribute_check_runs [.rStr "5", .rStr "5"] = some [5, 5]
    ∧ claimed_runs_normalization [.rStr "5", .rStr "5"] = some [5]
    ∧ some ([5, 5] : List Int) ≠ some [5] :=
  ⟨by decide, by decide, by decide⟩

/-- C6 (amended): for every list of integer run values the stored value is
exactly the claimed normalization — duplicates silently dropped keeping the
order of first occurrence, every element an integer — and in particular
assigning `runs=[5,5,3,5]` stores `[5,3]`. (As originally stated, for
arbitrary lists, the claim fails on string elements; see the
counterexample.) -/
theorem c6_runs_normalization (l : List Int) :
    before_attribute_check_runs (l.map .rInt)
        = claimed_runs_normalization (l.map .rInt)
    ∧ before_attribute_check_runs (l.map .rInt) = some (dedup_first l)
    ∧ (dedup_first l).Nodup
    ∧ before_attribute_check_runs [.rInt 5, .rInt 5, .rInt 3, .rInt 5]
        = some [5, 3] := by
  refine ⟨?_, ?_, dedup_first_aux_nodup l [] List.nodup_nil, by decide⟩
  · rw [before_attribute_check_runs, runs_loop_map_rInt,
      claimed_runs_normalization]
    have h0 : ([] : List RunValue) = ([] : List Int).map .rInt := rfl
    rw [h0, dedup_runs_aux_map_rInt, coerce_all_map_rInt]
  · rw [before_attribute_check_runs, runs_loop_map_rInt]
    rfl

/-- C7 counterexample: normalization is not idempotent: the mixed list
`[5, "5"]` normalizes to `[5, 5]`, but normalizing that stored value again
gives `[5]`. -/
theorem c7_idempotence_counterexample :
    before_attribute_check_runs [.rInt 5, .rStr "5"] = some [5, 5]
    ∧ before_attribute_check_runs [.rInt 5, .rInt 5] = some [5]
    ∧ some ([5] : List Int) ≠ some [5, 5] :=
  ⟨by decide, by decide, by decide⟩

/-- C7 (amended): normalization is idempotent on lists of integer run
values: whatever `before_attribute_check` stores for an all-integer
assignment is returned unchanged when normalized again. (As originally
stated — including mixed integer and string representations — idempotence
fails; see the counterexample.) -/
theorem c7_runs_idempotent (l m : List Int)
    (h : before_attribute_check_runs (l.map .rInt) = some m) :
    before_attribute_check_runs (m.map .rInt) = some m := by
  rw [before_attribute_check_runs, runs_loop_map_rInt] at h
  have hm : m = dedup_first l := (Option.some.inj h).symm
  rw [before_attribute_check_runs, runs_loop_map_rInt]
  have hnd : m.Nodup := hm ▸ dedup_first_aux_nodup l [] List.nodup_nil
  have : dedup_first_aux m [] = [] ++ m :=
    dedup_first_aux_of_nodup m [] (by simpa using hnd)
  rw [this]
  rfl

/-- C7 witness: `[5,5,3]` normalizes to `[5,3]`, and `[5,3]` re-normalizes
to itself. -/
theorem c7_runs_idempotent_witness :
    before_attribute_check_runs (([5, 3] : List Int).map .rInt)
      = some [5, 3] :=
  c7_runs_idempotent [5, 5, 3] [5, 3] (by decide)

/-- C8: assigning a priority outside the inclusive range [1000, 1000000]
fails with a `ValidationError` carrying the field name and the offending
value, and the previously stored priority is left unchanged. -/
theorem c8_priority_validation (st : RequestState) (v : Int)
    (h : ¬(1000 ≤ v ∧ v ≤ 1000000)) :
    set_priority st v = (.error ⟨"priority", v⟩, st)
    ∧ (set_priority st v).2.priority = st.priority := by
  have hc : ¬(priority_check v = true) := by
    simp only [priority_check, Bool.and_eq_true, decide_eq_true_eq]
    exact h
  rw [set_priority, if_neg hc]
  exact ⟨rfl, rfl⟩

/-- C8 witness: assigning `priority=500` to a request holding the default
110000 fails with the error carrying field and value, and the stored
priority stays 110000. -/
theorem c8_priority_validation_witness :
    set_priority ⟨110000⟩ 500 = (.error ⟨"priority", 500⟩, ⟨110000⟩)
    ∧ (set_priority ⟨110000⟩ 500).2.priority = 110000 :=
  c8_priority_validation ⟨110000⟩ 500 (by decide)

theorem lookup_eq_of_perm (a b : List (String × PyVal)) (h : a.Perm b)
    (k : String) :
    (a.map Prod.fst).Nodup → a.lookup k = b.lookup k := by
  induction h with
  | nil => intro _; rfl
  | cons x h ih =>
    intro hnd
    rw [lookup_cons, lookup_cons]
    by_cases hk : k = x.1
    · rw [if_pos hk, if_pos hk]
    · rw [if_neg hk, if_neg hk]
      exact ih (by simpa using (List.nodup_cons.mp (by simpa using hnd)).2)
  | swap x y l =>
    intro hnd
    rw [lookup_cons, lookup_cons, lookup_cons, lookup_cons]
    by_cases hx : k = x.1 <;> by_cases hy : k = y.1
    · exfalso
      have hxy : y.1 = x.1 := by rw [← hy, hx]
      have hnd' : (y.1 :: x.1 :: l.map Prod.fst).Nodup := by simpa using hnd
      exact (List.nodup_cons.mp hnd').1 (hxy ▸ List.mem_cons_self x.1 _)
    · rw [if_neg hy, if_pos hx, if_pos hx]
    · rw [if_pos hy, if_neg hx, if_pos hy]
    · rw [if_neg hy, if_neg hx, if_neg hx, if_neg hy]
  | trans h1 h2 ih1 ih2 =>
    intro hnd
    rw [ih1 hnd, ih2 (((h1.map Prod.fst).nodup_iff).mp hnd)]

/-- C3: `buildCommand` emits arguments in lexicographic key order
independently of the mapping's insertion order (two dictionaries holding the
same entries in different orders produce identical text), never emits an
argument with a falsy value, emits a `True` boolean as a bare `--key` flag,
and emits a non-empty list as a single comma-joined token. -/
theorem c3_buildCommand_emission (t : String) (a b : List (String × PyVal))
    (k : String) (v : PyVal) (xs : List String) :
    (a.Perm b → (a.map Prod.fst).Nodup →
      (build_cmsdriver t a).1 = (build_cmsdriver t b).1)
    ∧ (a.lookup k = some v → isFalsy v = true → k ∉ emitted_keys a)
    ∧ (a.lookup k = some (.vBool true) →
        pyRstrip (" --" ++ k) = " --" ++ k →
        emit_command a k = " --" ++ k)
    ∧ (a.lookup k = some (.vList xs) → xs ≠ [] →
        pyRstrip (" --" ++ k ++ " " ++ String.intercalate "," xs)
          = " --" ++ k ++ " " ++ String.intercalate "," xs →
        emit_command a k = " --" ++ k ++ " " ++ String.intercalate "," xs) := by
  refine ⟨?_, ?_, ?_, ?_⟩
  · intro hperm hnd
    have hlook : ∀ x, a.lookup x = b.lookup x :=
      fun x => lookup_eq_of_perm a b hperm x hnd
    have hs : sorted_keys a = sorted_keys b :=
      sorted_keys_eq_of_perm a b (hperm.map Prod.fst)
    have hec : emit_command a = emit_command b := by
      funext x
      simp only [emit_command, hlook x]
    have hecm : emit_comment a = emit_comment b := by
      funext x
      simp only [emit_comment, hlook x]
    simp only [build_cmsdriver]
    rw [hs, hec, hecm]
  · intro hv hf hk
    rw [emitted_keys, List.mem_filter, hv] at hk
    have h2 : (!(isFalsy v)) = true := hk.2
    rw [hf] at h2
    simp at h2
  · intro hv hr
    unfold emit_command
    rw [hv]
    show pyRstrip (" --" ++ k ++ " " ++ "") = " --" ++ k
    rw [String.append_empty, pyRstrip_append_space, hr]
  · intro hv hne hr
    have hie : xs.isEmpty = false := by
      cases xs with
      | nil => exact absurd rfl hne
      | cons y ys => rfl
    have hif : isFalsy (.vList xs) = false := hie
    have hrv : rewriteVal (.vList xs) = .vStr (String.intercalate "," xs) := by
      rw [rewriteVal, if_neg (by simp [hif])]
    unfold emit_command
    rw [hv]
    show (if isFalsy (.vList xs) = true then ""
          else pyRstrip (" --" ++ k ++ " " ++ pyStr (rewriteVal (.vList xs))))
        = " --" ++ k ++ " " ++ String.intercalate "," xs
    rw [if_neg (by simp [hif]), hrv]
    exact hr

/-- The dictionary of the C3 witness, and the same entries in reversed
insertion order. -/
def c3da : List (String × PyVal) :=
  [("filein", .vStr "f.root"), ("data", .vBool true),
   ("step", .vList ["RECO", "DQM"]), ("notes", .vStr ""), ("mem", .vInt 0)]

/-- The C3 witness dictionary with its entries in the opposite order. -/
def c3db : List (String × PyVal) :=
  [("mem", .vInt 0), ("notes", .vStr ""), ("step", .vList ["RECO", "DQM"]),
   ("data", .vBool true), ("filein", .vStr "f.root")]

/-- C3 witness: the two insertion orders give identical text, the falsy
`notes` and `mem` arguments are not emitted, `data=True` is a bare flag, and
the `step` list is one comma-joined token. -/
theorem c3_buildCommand_emission_witness :
    (build_cmsdriver "RECO" c3da).1 = (build_cmsdriver "RECO" c3db).1
    ∧ "notes" ∉ emitted_keys c3da
    ∧ emit_command c3da "data" = " --" ++ "data"
    ∧ emit_command c3da "step"
        = " --" ++ "step" ++ " " ++ String.intercalate "," ["RECO", "DQM"] :=
  ⟨(c3_buildCommand_emission "RECO" c3da c3db "x" .vNone []).1
      (by decide) (by decide),
   (c3_buildCommand_emission "RECO" c3da c3db "notes" (.vStr "") []).2.1
      (by decide) (by decide),
   (c3_buildCommand_emission "RECO" c3da c3db "data" .vNone []).2.2.1
      (by decide) (by decide),
   (c3_buildCommand_emission "RECO" c3da c3db "step" .vNone
      ["RECO", "DQM"]).2.2.2 (by decide) (by decide) (by decide)⟩

/-- C5: the generated text is a `#`-commented listing of the emitted
arguments (one line per argument, each line `#` followed by that argument's
command token), a blank separator line, the `# Command for {kind}:` line,
and the literal command line `cmsDriver.py {kind}` followed by the argument
tokens; the emitted keys are in lexicographic order. -/
theorem c5_command_text_format (t : String) (a : List (String × PyVal)) :
    (build_cmsdriver t a).1
      = ("# Arguments for " ++ t ++ ":\n"
          ++ strConcat ((emitted_keys a).map
              (fun k => "#" ++ emit_command a k ++ "\n")))
        ++ "\n"
        ++ ("# Command for " ++ t ++ ":\ncmsDriver.py " ++ t
          ++ strConcat ((emitted_keys a).map (emit_command a)))
    ∧ (emitted_keys a).Sorted (fun x y => strLe x y = true) := by
  constructor
  · have hmap : (emitted_keys a).map (emit_comment a)
        = (emitted_keys a).map (fun k => "#" ++ emit_command a k ++ "\n") := by
      apply List.map_congr_left
      intro x hx
      rw [emitted_keys, List.mem_filter] at hx
      cases hl : a.lookup x with
      | none =>
        rw [hl] at hx
        exact absurd hx.2 (by simp)
      | some v =>
        rw [hl] at hx
        have h2 : (!(isFalsy v)) = true := hx.2
        have hf : isFalsy v = false := by
          cases hfv : isFalsy v
          · rfl
          · rw [hfv] at h2
            simp at h2
        exact emit_comment_eq_hash a x v hl hf
    rw [build_cmsdriver_fst, hmap]
  · exact (sorted_keys_sorted a).sublist (List.filter_sublist _)

theorem reco_arguments_lookup_other (req : Request)
    (json : List (String × PyVal)) (i : Nat) (ow : Option String)
    (k : String)
    (h1 : k ≠ "filein") (h2 : k ≠ "fileout") (h3 : k ≠ "python_filename")
    (h4 : k ≠ "data") (h5 : k ≠ "no_exec") (h6 : k ≠ "runUnscheduled")
    (h7 : k ≠ "config_id") (h8 : k ≠ "harvesting_config_id") :
    (reco_arguments req json i ow).lookup k = json.lookup k := by
  simp only [reco_arguments]
  rw [lookup_dictSet_ne _ _ _ _ h6, lookup_dictSet_ne _ _ _ _ h5,
    lookup_dictSet_ne _ _ _ _ h4, lookup_dictSet_ne _ _ _ _ h3,
    lookup_dictSet_ne _ _ _ _ h2]
  by_cases hc : (ow.getD "") ≠ ""
  · rw [if_pos hc, lookup_dictSet_ne _ _ _ _ h1,
      lookup_strip_metadata _ _ h7 h8]
  · rw [if_neg hc]
    by_cases hz : (i == 0) = true
    · rw [if_pos hz, lookup_dictSet_ne _ _ _ _ h1,
        lookup_strip_metadata _ _ h7 h8]
    · rw [if_neg hz, lookup_dictSet_ne _ _ _ _ h1,
        lookup_strip_metadata _ _ h7 h8]

/-- C1: with no overwrite input, the compiled argument dictionary of
sequence 0 has `filein` set to the request's `input_dataset` as a `dbs:`
reference, the dictionary of any later sequence `i` has `filein` set to the
previous sequence's canonical name with `.root` as a `file:` reference, and
every sequence's dictionary has `fileout` set to its own canonical name with
`.root` as a `file:` reference. -/
theorem c1_filein_fileout (req : Request)
    (sequence_json : List (String × PyVal)) (i : Nat)
    (hj : req.sequences.get? i = some sequence_json) :
    (i = 0 → (reco_arguments req sequence_json i none).lookup "filein"
        = some (.vStr ("\"dbs:" ++ req.input_dataset ++ "\"")))
    ∧ (0 < i → (reco_arguments req sequence_json i none).lookup "filein"
        = some (.vStr ("\"file:"
            ++ get_sequence_name req.prepid req.sequences.length ((i : Int) - 1)
            ++ ".root\"")))
    ∧ (reco_arguments req sequence_json i none).lookup "fileout"
        = some (.vStr ("\"file:"
            ++ get_sequence_name req.prepid req.sequences.length (i : Int)
            ++ ".root\"")) := by
  refine ⟨?_, ?_, ?_⟩
  · intro h0
    subst h0
    simp only [reco_arguments]
    rw [lookup_dictSet_ne _ _ _ _ (by decide),
      lookup_dictSet_ne _ _ _ _ (by decide),
      lookup_dictSet_ne _ _ _ _ (by decide),
      lookup_dictSet_ne _ _ _ _ (by decide),
      lookup_dictSet_ne _ _ _ _ (by decide),
      if_neg (by simp), if_pos (by decide), lookup_dictSet_self]
  · intro hpos
    have hz : ((i == 0) = true) = False := by
      simp only [beq_iff_eq, eq_iff_iff, iff_false]
      omega
    simp only [reco_arguments]
    rw [lookup_dictSet_ne _ _ _ _ (by decide),
      lookup_dictSet_ne _ _ _ _ (by decide),
      lookup_dictSet_ne _ _ _ _ (by decide),
      lookup_dictSet_ne _ _ _ _ (by decide),
      lookup_dictSet_ne _ _ _ _ (by decide),
      if_neg (by simp), if_neg (by rw [hz]; exact id), lookup_dictSet_self]
  · simp only [reco_arguments]
    rw [lookup_dictSet_ne _ _ _ _ (by decide),
      lookup_dictSet_ne _ _ _ _ (by decide),
      lookup_dictSet_ne _ _ _ _ (by decide),
      lookup_dictSet_ne _ _ _ _ (by decide),
      lookup_dictSet_self]

/-- C1 witness: the two-sequence request of Scenario B: sequence 0 reads
the dbs dataset and writes `ABC-123_0.root`; sequence 1 reads
`ABC-123_0.root` and writes `ABC-123.root`. -/
theorem c1_filein_fileout_witness :
    (reco_arguments ⟨"ABC-123", "/X/Y/Z", [[], []]⟩ [] 0 none).lookup "filein"
      = some (.vStr "\"dbs:/X/Y/Z\"")
    ∧ (reco_arguments ⟨"ABC-123", "/X/Y/Z", [[], []]⟩ [] 0 none).lookup "fileout"
      = some (.vStr "\"file:ABC-123_0.root\"")
    ∧ (reco_arguments ⟨"ABC-123", "/X/Y/Z", [[], []]⟩ [] 1 none).lookup "filein"
      = some (.vStr "\"file:ABC-123_0.root\"")
    ∧ (reco_arguments ⟨"ABC-123", "/X/Y/Z", [[], []]⟩ [] 1 none).lookup "fileout"
      = some (.vStr "\"file:ABC-123.root\"") :=
  ⟨((c1_filein_fileout ⟨"ABC-123", "/X/Y/Z", [[], []]⟩ [] 0 (by decide)).1
      rfl).trans (by decide),
   ((c1_filein_fileout ⟨"ABC-123", "/X/Y/Z", [[], []]⟩ [] 0
      (by decide)).2.2).trans (by decide),
   ((c1_filein_fileout ⟨"ABC-123", "/X/Y/Z", [[], []]⟩ [] 1 (by decide)).2.1
      (by decide)).trans (by decide),
   ((c1_filein_fileout ⟨"ABC-123", "/X/Y/Z", [[], []]⟩ [] 1
      (by decide)).2.2).trans (by decide)⟩

/-- C10: `build_cmsdriver` rewrites the argument mapping passed to it: a
`True` entry is rebound to the empty string, a non-empty list entry to the
comma-join of its elements, and falsy or plain scalar (string / integer)
entries are left unchanged; the returned mapping (the Python dict after the
in-place mutation) shows exactly these values. -/
theorem c10_buildCommand_mutation (t : String) (a : List (String × PyVal))
    (k : String) (v : PyVal) (xs : List String) (s : String) (n : Int)
    (h : a.lookup k = some v) :
    (v = .vBool true → (build_cmsdriver t a).2.lookup k = some (.vStr ""))
    ∧ (v = .vList xs → xs ≠ [] →
        (build_cmsdriver t a).2.lookup k
          = some (.vStr (String.intercalate "," xs)))
    ∧ (isFalsy v = true → (build_cmsdriver t a).2.lookup k = some v)
    ∧ (v = .vStr s → s ≠ "" → (build_cmsdriver t a).2.lookup k = some v)
    ∧ (v = .vInt n → n ≠ 0 → (build_cmsdriver t a).2.lookup k = some v) := by
  have hm : (build_cmsdriver t a).2.lookup k = (a.lookup k).map rewriteVal :=
    lookup_map_value a rewriteVal k
  refine ⟨?_, ?_, ?_, ?_, ?_⟩
  · intro hb
    subst hb
    rw [hm, h]
    rfl
  · intro hl hne
    subst hl
    rw [hm, h]
    have hif : isFalsy (.vList xs) = false := by
      cases xs with
      | nil => exact absurd rfl hne
      | cons y ys => rfl
    show some (rewriteVal (.vList xs)) = _
    rw [rewriteVal, if_neg (by simp [hif])]
  · intro hf
    rw [hm, h]
    show some (rewriteVal v) = some v
    simp [rewriteVal, hf]
  · intro hs hne
    subst hs
    rw [hm, h]
    have hif : isFalsy (.vStr s) = false := by
      have hie : s.isEmpty = false := by
        cases hse : s.isEmpty
        · rfl
        · exact absurd ((String.isEmpty_iff s).mp hse) hne
      exact hie
    show some (rewriteVal (.vStr s)) = some (.vStr s)
    simp [rewriteVal, hif]
  · intro hn hne
    subst hn
    rw [hm, h]
    have hif : isFalsy (.vInt n) = false := by
      have hb : (n == 0) = false := beq_eq_false_iff_ne.mpr hne
      exact hb
    show some (rewriteVal (.vInt n)) = some (.vInt n)
    simp [rewriteVal, hif]

/-- C10 witness: in the mapping returned for the C3 dictionary, `data=True`
became `''`, the `step` list became `"RECO,DQM"`, and the falsy `notes` and
scalar `filein` entries are unchanged. -/
theorem c10_buildCommand_mutation_witness :
    (build_cmsdriver "RECO" c3da).2.lookup "data" = some (.vStr "")
    ∧ (build_cmsdriver "RECO" c3da).2.lookup "step"
        = some (.vStr (String.intercalate "," ["RECO", "DQM"]))
    ∧ (build_cmsdriver "RECO" c3da).2.lookup "notes" = some (.vStr "")
    ∧ (build_cmsdriver "RECO" c3da).2.lookup "filein" = some (.vStr "f.root") :=
  ⟨(c10_buildCommand_mutation "RECO" c3da "data" (.vBool true) [] "" 0
      (by decide)).1 rfl,
   (c10_buildCommand_mutation "RECO" c3da "step" (.vList ["RECO", "DQM"])
      ["RECO", "DQM"] "" 0 (by decide)).2.1 rfl (by decide),
   (c10_buildCommand_mutation "RECO" c3da "notes" (.vStr "") [] "" 0
      (by decide)).2.2.1 (by decide),
   (c10_buildCommand_mutation "RECO" c3da "filein" (.vStr "f.root") []
      "f.root" 0 (by decide)).2.2.2.1 rfl (by decide)⟩

/-- C2: a harvesting command is appended to the compiled text, after a blank
separator line, iff the sequence's step list contains an entry equal to
`"DQM"` or starting with `"DQM:"`; the first matching entry in list order
determines the label — `"HARVESTING"` for the bare form, the matched string
with its leading `"DQM:"` replaced by `"HARVESTING:"` for the prefixed
form — and the harvesting command is built from the same conditions and
scenario values (as held by the argument dictionary after the primary
build), the first comma-separated token of its era, `data` and `no_exec`
set true, a `filein` named after this sequence's canonical name with an
`_inDQM` suffix, and a script filename with a `_harvest` suffix. -/
theorem c2_harvesting_injection (req : Request) (i : Nat)
    (ow : Option String) (sequence_json : List (String × PyVal))
    (lbl era_str : String) (conditions scenario : PyVal)
    (hj : req.sequences.get? i = some sequence_json) :
    (needs_harvesting sequence_json = true
      ↔ ∃ s ∈ sequence_step sequence_json,
          s = "DQM" ∨ pyStartsWith s "DQM:" = true)
    ∧ (needs_harvesting sequence_json = false →
        get_cmsdriver req i ow
          = .ok (build_cmsdriver "RECO"
              (reco_arguments req sequence_json i ow)).1)
    ∧ (needs_harvesting sequence_json = true →
        harvest_step_label (sequence_step sequence_json) = some lbl →
        (build_cmsdriver "RECO"
          (reco_arguments req sequence_json i ow)).2.lookup "conditions"
            = some conditions →
        (build_cmsdriver "RECO"
          (reco_arguments req sequence_json i ow)).2.lookup "era"
            = some (.vStr era_str) →
        (build_cmsdriver "RECO"
          (reco_arguments req sequence_json i ow)).2.lookup "scenario"
            = some scenario →
        get_cmsdriver req i ow
          = .ok ((build_cmsdriver "RECO"
                (reco_arguments req sequence_json i ow)).1
              ++ "\n\n"
              ++ (build_cmsdriver "HARVESTING"
                  [("conditions", conditions),
                   ("step", .vStr lbl),
                   ("era", .vStr (firstCommaToken era_str)),
                   ("scenario", scenario),
                   ("data", .vBool true),
                   ("no_exec", .vBool true),
                   ("filein", .vStr ("\"file:"
                      ++ get_sequence_name req.prepid req.sequences.length
                           (i : Int) ++ "_inDQM.root\"")),
                   ("python_filename", .vStr ("\""
                      ++ get_sequence_name req.prepid req.sequences.length
                           (i : Int) ++ "_harvest_cfg.py\""))]).1))
    ∧ (∀ (pre post : List String) (s : String),
        (∀ x ∈ pre, ¬(x = "DQM" ∨ pyStartsWith x "DQM:" = true)) →
        harvest_step_label (pre ++ s :: post)
          = (if s = "DQM" then some "HARVESTING"
             else if pyStartsWith s "DQM:" = true
             then some ("HARVESTING:" ++ s.drop 4)
             else harvest_step_label post)) := by
  refine ⟨?_, ?_, ?_, ?_⟩
  · rw [needs_harvesting, List.any_eq_true]
    simp only [Bool.or_eq_true, beq_iff_eq]
  · intro hnh
    simp only [get_cmsdriver, hj]
    rw [if_neg (by simp [hnh])]
  · intro hh hlbl hc he hs
    simp only [get_cmsdriver, hj, hh, hlbl, hc, he, hs]
    rw [if_pos trivial]
  · intro pre post s
    induction pre with
    | nil =>
      intro _
      rw [List.nil_append, harvest_step_label]
      by_cases h1 : s = "DQM"
      · rw [if_pos (by simp [h1]), if_pos h1]
      · rw [if_neg (by simp [h1]), if_neg h1]
    | cons x rest ih =>
      intro hpre
      have hx := hpre x (List.mem_cons_self x rest)
      push_neg at hx
      rw [List.cons_append, harvest_step_label, if_neg (by simp [hx.1]),
        if_neg hx.2]
      exact ih (fun y hy => hpre y (List.mem_cons_of_mem x hy))

/-- The sequence of the C2 witness, Scenario C: a `DQM:`-prefixed step and a
two-token era. -/
def c2seq : List (String × PyVal) :=
  [("step", .vList ["RAW2DIGI", "RECO", "DQM:dqmHarvesting"]),
   ("era", .vStr "Run3,extra"),
   ("conditions", .vStr "tag1"),
   ("scenario", .vStr "pp")]

/-- The request of the C2 witness: `c2seq` is its second sequence. -/
def c2req : Request := ⟨"ABC-123", "/X/Y/Z", [[], c2seq]⟩

/-- C2 witness: compiling the Scenario C sequence appends a harvesting
command with label `HARVESTING:dqmHarvesting`, the first era token, the
`_inDQM` input and the `_harvest` script name. -/
theorem c2_harvesting_injection_witness :
    get_cmsdriver c2req 1 none
      = .ok ((build_cmsdriver "RECO" (reco_arguments c2req c2seq 1 none)).1
          ++ "\n\n"
          ++ (build_cmsdriver "HARVESTING"
              [("conditions", .vStr "tag1"),
               ("step", .vStr "HARVESTING:dqmHarvesting"),
               ("era", .vStr (firstCommaToken "Run3,extra")),
               ("scenario", .vStr "pp"),
               ("data", .vBool true),
               ("no_exec", .vBool true),
               ("filein", .vStr ("\"file:"
                  ++ get_sequence_name c2req.prepid c2req.sequences.length
                       ((1 : Nat) : Int) ++ "_inDQM.root\"")),
               ("python_filename", .vStr ("\""
                  ++ get_sequence_name c2req.prepid c2req.sequences.length
                       ((1 : Nat) : Int) ++ "_harvest_cfg.py\""))]).1) :=
  (c2_harvesting_injection c2req 1 none c2seq "HARVESTING:dqmHarvesting"
    "Run3,extra" (.vStr "tag1") (.vStr "pp") (by decide)).2.2.1
    (by decide) (by decide) (by decide) (by decide) (by decide)

/-- C9: an out-of-range sequence index makes the compilation fail fast with
an index error and no command text; a missing `conditions`, `era` or
`scenario` key in a sequence that needs harvesting makes the compilation
fail with no partial output. -/
theorem c9_compile_failures (req : Request) (i : Nat) (ow : Option String)
    (sequence_json : List (String × PyVal)) :
    (req.sequences.length ≤ i →
      get_cmsdriver req i ow = .error .indexError)
    ∧ (req.sequences.get? i = some sequence_json →
        needs_harvesting sequence_json = true →
        (sequence_json.lookup "conditions" = none
          ∨ sequence_json.lookup "era" = none
          ∨ sequence_json.lookup "scenario" = none) →
        ∃ e, get_cmsdriver req i ow = .error e) := by
  constructor
  · intro hlen
    have hnone : req.sequences.get? i = none := by
      rw [List.get?_eq_none]
      exact hlen
    simp only [get_cmsdriver, hnone]
  · intro hj hh hmiss
    have hmut : ∀ k : String, k ≠ "filein" → k ≠ "fileout" →
        k ≠ "python_filename" → k ≠ "data" → k ≠ "no_exec" →
        k ≠ "runUnscheduled" → k ≠ "config_id" →
        k ≠ "harvesting_config_id" →
        sequence_json.lookup k = none →
        (build_cmsdriver "RECO"
          (reco_arguments req sequence_json i ow)).2.lookup k = none := by
      intro k k1 k2 k3 k4 k5 k6 k7 k8 hk
      show ((reco_arguments req sequence_json i ow).map
          (fun kv => (kv.1, rewriteVal kv.2))).lookup k = none
      rw [lookup_map_value,
        reco_arguments_lookup_other req sequence_json i ow k
          k1 k2 k3 k4 k5 k6 k7 k8, hk]
      rfl
    simp only [get_cmsdriver, hj, hh]
    cases hlbl : harvest_step_label (sequence_step sequence_json) with
    | none =>
      exact ⟨.nameError, by simp only [hlbl]; rw [if_pos trivial]⟩
    | some lbl =>
      cases hcl : (build_cmsdriver "RECO"
          (reco_arguments req sequence_json i ow)).2.lookup "conditions" with
      | none =>
        exact ⟨.keyError "conditions", by simp only [hlbl, hcl]; rw [if_pos trivial]⟩
      | some c =>
        cases hel : (build_cmsdriver "RECO"
            (reco_arguments req sequence_json i ow)).2.lookup "era" with
        | none =>
          exact ⟨.keyError "era", by simp only [hlbl, hcl, hel]; rw [if_pos trivial]⟩
        | some ev =>
          rcases hmiss with hm | hm | hm
          · rw [hmut "conditions" (by decide) (by decide) (by decide)
              (by decide) (by decide) (by decide) (by decide) (by decide)
              hm] at hcl
            exact Option.noConfusion hcl
          · rw [hmut "era" (by decide) (by decide) (by decide) (by decide)
              (by decide) (by decide) (by decide) (by decide) hm] at hel
            exact Option.noConfusion hel
          · cases ev with
            | vStr es =>
              cases hsl : (build_cmsdriver "RECO"
                  (reco_arguments req sequence_json i ow)).2.lookup
                    "scenario" with
              | none =>
                exact ⟨.keyError "scenario", by simp only [hlbl, hcl, hel, hsl]; rw [if_pos trivial]⟩
              | some sv =>
                rw [hmut "scenario" (by decide) (by decide) (by decide)
                  (by decide) (by decide) (by decide) (by decide) (by decide)
                  hm] at hsl
                exact Option.noConfusion hsl
            | vBool b =>
              exact ⟨.attributeError "era",
                by simp only [hlbl, hcl, hel]; rw [if_pos trivial]⟩
            | vInt n =>
              exact ⟨.attributeError "era",
                by simp only [hlbl, hcl, hel]; rw [if_pos trivial]⟩
            | vList xs =>
              exact ⟨.attributeError "era",
                by simp only [hlbl, hcl, hel]; rw [if_pos trivial]⟩
            | vNone =>
              exact ⟨.attributeError "era",
                by simp only [hlbl, hcl, hel]; rw [if_pos trivial]⟩

/-- The request of the C9 witness: its sequence 0 needs harvesting but has
no `conditions`, `era` or `scenario` keys. -/
def c9req : Request := ⟨"ABC-123", "/X/Y/Z", [[("step", .vList ["DQM"])], []]⟩

/-- C9 witness: index 5 on a two-sequence request is an index error, and a
harvesting sequence with no `conditions` key fails (with a key error). -/
theorem c9_compile_failures_witness :
    get_cmsdriver c9req 5 none = .error .indexError
    ∧ ∃ e, get_cmsdriver c9req 0 none = .error e :=
  ⟨(c9_compile_failures c9req 5 none []).1 (by decide),
   (c9_compile_failures c9req 0 none [("step", .vList ["DQM"])]).2
     (by decide) (by decide) (Or.inl (by decide))⟩

example : pyRstrip " --key " = " --key" := by decide
example : pyRstrip "# --key abc" = "# --key abc" := by decide
example : strLe "data" "filein" = true := by decide
example : strLe "filein" "data" = false := by decide
example : rewriteVal (.vBool true) = .vStr "" := by decide
example : rewriteVal (.vBool false) = .vBool false := by decide
example : rewriteVal (.vList ["a", "b"]) = .vStr "a,b" := by decide
